import Mathlib

/-!
Verification development for `src/RT_Kernel_Test_Scripts/TestingTiming.cpp`,
a diagnostic utility that elevates its scheduling priority, opens a UART
device, and periodically transmits an ASCII-formatted sine-wave sample at a
fixed 50 ms cadence.

The C++ source is shallowly embedded below:
* `Timespec`, `add_ms` model `struct timespec` and the `add_ms` helper
  (C `long`/`long long` arithmetic is modelled by `Int`; on the target the
  involved quantities stay far from any machine-width boundary).
* The double-precision sine computation is modelled over the reals
  (`sampleY`), and the `snprintf "%.4f\r\n"` formatting over the rationals
  (every IEEE-754 double is an exact rational, and glibc's `%f` prints the
  decimal rounding of that exact value).
* The control flow of `main` (priority request, open, configure, infinite
  transmit loop) is modelled by `program` / `mainRun` / `loopStep` over an
  environment `MainEnv` that supplies the results of the external calls
  (`sched_setscheduler`, `open`, `tcgetattr`, `clock_gettime`).
-/

namespace TestingTiming

/-- Model of `struct timespec`: seconds and nanoseconds fields.
Both fields are modelled as unbounded integers (`time_t` / `long`). -/
structure Timespec where
  tv_sec : Int
  tv_nsec : Int
  deriving Repr, DecidableEq

/-- The instant denoted by a `timespec`, in nanoseconds. -/
def toNs (t : Timespec) : Int :=
  t.tv_sec * 1000000000 + t.tv_nsec

/-- The `while (t.tv_nsec >= 1000000000LL)` normalisation loop of `add_ms`:
repeatedly move one second's worth of nanoseconds from `tv_nsec` to
`tv_sec`. -/
def addMsNorm (t : Timespec) : Timespec :=
  if 1000000000 ≤ t.tv_nsec then
    addMsNorm { tv_sec := t.tv_sec + 1, tv_nsec := t.tv_nsec - 1000000000 }
  else t
termination_by t.tv_nsec.toNat
decreasing_by
  omega

/-- `add_ms(struct timespec &t, long ms)` from the source:
`t.tv_nsec += ms * 1000000LL;` followed by the carry loop. -/
def add_ms (t : Timespec) (ms : Int) : Timespec :=
  addMsNorm { tv_sec := t.tv_sec, tv_nsec := t.tv_nsec + ms * 1000000 }

theorem addMsNorm_toNs (t : Timespec) : toNs (addMsNorm t) = toNs t := by
  rw [addMsNorm.eq_def]
  split
  · rw [addMsNorm_toNs]
    simp [toNs]
    ring
  · rfl
termination_by t.tv_nsec.toNat
decreasing_by
  omega

theorem addMsNorm_nsec_lt (t : Timespec) : (addMsNorm t).tv_nsec < 1000000000 := by
  rw [addMsNorm.eq_def]
  split
  · exact addMsNorm_nsec_lt _
  · omega
termination_by t.tv_nsec.toNat
decreasing_by
  omega

theorem addMsNorm_nsec_nonneg (t : Timespec) (h : 0 ≤ t.tv_nsec) :
    0 ≤ (addMsNorm t).tv_nsec := by
  rw [addMsNorm.eq_def]
  split
  · exact addMsNorm_nsec_nonneg _ (by show (0:Int) ≤ t.tv_nsec - 1000000000; omega)
  · exact h
termination_by t.tv_nsec.toNat
decreasing_by
  omega

/-- Semantic specification of `add_ms`: it adds exactly `ms` milliseconds. -/
theorem add_ms_toNs (t : Timespec) (ms : Int) :
    toNs (add_ms t ms) = toNs t + ms * 1000000 := by
  unfold add_ms
  rw [addMsNorm_toNs]
  simp [toNs]
  ring

/-! ## Sine-wave computation (`main`, lines 54-78)

The constants and the per-iteration value computation. The C doubles are
modelled over `ℝ`; `0.33`, `4.0`, `50 ms` are exactly representable as
stated (0.33 is not exactly representable in binary, but the claims are
stated against the source literal, which the real model captures
exactly). -/

/-- `const double freq = 0.33;` (Hz). -/
noncomputable def freq : ℝ := 0.33

/-- `const double two_pi = 2 * M_PI;`. -/
noncomputable def two_pi : ℝ := 2 * Real.pi

/-- `const double amplitude = 4.0;` (half-range). -/
noncomputable def amplitude : ℝ := 4.0

/-- `const double offset = 4.0;` (centre, so output is 0..8). -/
noncomputable def offset : ℝ := 4.0

/-- `t_sec = (now.tv_sec - start.tv_sec) + (now.tv_nsec - start.tv_nsec) / 1e9;` -/
noncomputable def t_sec (start now : Timespec) : ℝ :=
  ((now.tv_sec - start.tv_sec : Int) : ℝ) +
    ((now.tv_nsec - start.tv_nsec : Int) : ℝ) / 1e9

/-- `double y = amplitude * std::sin(two_pi * freq * t_sec) + offset;` -/
noncomputable def sampleY (ts : ℝ) : ℝ :=
  amplitude * Real.sin (two_pi * freq * ts) + offset

/-! ## Environment and control flow of `main` -/

/-- Model of `struct termios`: the mode-flag words and the stored input and
output speed codes (`speed_t`). Flag words are machine words holding bit
masks, modelled as `Nat`. -/
structure Termios where
  c_iflag : Nat
  c_oflag : Nat
  c_cflag : Nat
  c_lflag : Nat
  ispeed : Nat
  ospeed : Nat
  deriving Repr, DecidableEq

/-- Results of the external calls `main` performs, supplied as an
environment: whether `sched_setscheduler` succeeds, the `open` result
(`none` models a return of -1), the termios filled in by `tcgetattr`, the
two start-up `clock_gettime(CLOCK_MONOTONIC, ...)` readings, and the
reading taken at the top of each loop iteration. -/
structure MainEnv where
  rtOk : Bool
  openResult : Option Nat
  termiosInit : Termios
  clock0 : Timespec
  clockStart : Timespec
  nowAt : Nat → Timespec

/-- `enable_realtime()`: requests `SCHED_FIFO` priority 70; on failure
`perror("sched_setscheduler")` is the only effect. Returns the stderr
lines produced. -/
def enable_realtime (rtOk : Bool) : List String :=
  if rtOk then [] else ["sched_setscheduler"]

/-- The value computed and emitted at loop iteration `n` (iteration 0 is
the first): `sampleY` of the elapsed time between `start` and the
iteration's `clock_gettime` reading. -/
noncomputable def emittedValue (env : MainEnv) (n : Nat) : ℝ :=
  sampleY (t_sec env.clockStart (env.nowAt n))

/-- A state of the `while (true)` transmit loop, or the program point after
the loop (`close(serial_fd); return 0;`). `looping next n` is about to run
iteration `n` with absolute deadline `next` pending. -/
inductive Phase where
  | looping (next : Timespec) (n : Nat)
  | done
  deriving Repr, DecidableEq

/-- One iteration of the `while (true)` loop: the loop condition is the
literal `true`, the body has no `break` or `return`, and it ends with
`sleep_until(next); add_ms(next, 50);`. -/
def loopStep : Phase → Phase
  | .looping next n => .looping (add_ms next 50) (n + 1)
  | .done => .done

/-- The absolute wake-up deadline pending at the start of iteration `n`:
initialised by `clock_gettime(&next); add_ms(next, 50);` and advanced by
`add_ms(next, 50)` at the end of each iteration. -/
def deadline (env : MainEnv) : Nat → Timespec
  | 0 => add_ms env.clock0 50
  | n + 1 => add_ms (deadline env n) 50

/-- Outcome of `main` after the initialisation phase: either an early
`return 1` (listing the serial writes performed, none), or entry into the
non-terminating transmit loop at state `s0`. -/
inductive MainOutcome where
  | exitWith (code : Int) (serialWrites : List String)
  | entersLoop (s0 : Phase)
  deriving Repr

/-- `main`'s branching on `open`: `serial_fd == -1` prints the failure and
returns 1 before any sample is computed or written; otherwise the loop is
entered with the initial deadline `clock0 + 50 ms` at iteration 0. -/
def mainRun (env : MainEnv) : MainOutcome :=
  match env.openResult with
  | none => .exitWith 1 []
  | some _ => .entersLoop (.looping (add_ms env.clock0 50) 0)

/-- Aggregate result of running `main` in environment `env`: the stderr
lines produced during initialisation and the outcome. -/
structure ProgResult where
  stderrLog : List String
  outcome : MainOutcome

/-- The whole program: `enable_realtime()` first (its failure only logs),
then the `open`-dependent path of `mainRun`. -/
def program (env : MainEnv) : ProgResult :=
  { stderrLog :=
      enable_realtime env.rtOk ++
        (match env.openResult with
         | none => ["Failed to open UART"]
         | some _ => [])
    outcome := mainRun env }

/-! ## Line formatting (`snprintf(buffer, sizeof(buffer), "%.4f\r\n", y)`)

An IEEE-754 double is an exact rational number, and glibc's `%.4f` prints
that exact value rounded to 4 fractional digits. The formatting is
therefore modelled on `ℚ`. -/

/-- The ASCII digit for `d` (`d < 10`). -/
def digitChar (d : Nat) : Char := Char.ofNat (48 + d)

/-- The decimal digits of `n`, most significant first (the digits `%f`
prints for the integer part). -/
def natDigits (n : Nat) : List Char :=
  if n < 10 then [digitChar n]
  else natDigits (n / 10) ++ [digitChar (n % 10)]
termination_by n
decreasing_by
  exact Nat.div_lt_self (by omega) (by omega)

/-- Decimal representation of a natural number as a string. -/
def natRepr (n : Nat) : String := String.mk (natDigits n)

/-- The 4 fractional digits printed for a scaled fraction `k < 10000`,
zero-padded. -/
def frac4 (k : Nat) : String :=
  String.mk [digitChar (k / 1000 % 10), digitChar (k / 100 % 10),
             digitChar (k / 10 % 10), digitChar (k % 10)]

/-- `snprintf(buffer, 32, "%.4f\r\n", y)` for the exact rational value `y`
of the double: the value rounded to the nearest multiple of 10⁻⁴, printed
with exactly 4 fractional digits and terminated by CR LF. -/
def format4 (y : ℚ) : String :=
  let m : Int := round (y * 10000)
  (if m < 0 then "-" else "") ++
    natRepr (m.natAbs / 10000) ++ "." ++ frac4 (m.natAbs % 10000) ++ "\r\n"

/-- The lines written to the serial device by the first `n` loop
iterations: each iteration performs exactly one
`write(serial_fd, buffer, strlen(buffer))` of the formatted sample.
`fl k` is the double computed at iteration `k`. -/
def serialWrites (fl : Nat → ℚ) : Nat → List String
  | 0 => []
  | n + 1 => serialWrites fl n ++ [format4 (fl n)]

/-! ## Serial port configuration (`main`, lines 43-49)

Bit values from Linux `<asm-generic/termbits.h>`. -/

/-- `B115200` speed code (octal 0010002). -/
def B115200 : Nat := 0x1002

/-- `CREAD` (octal 0000200): enable receiver. -/
def CREAD : Nat := 0x80

/-- `CLOCAL` (octal 0004000): ignore modem control lines. -/
def CLOCAL : Nat := 0x800

/-- `CSIZE` (octal 0000060): character-size mask. -/
def CSIZE : Nat := 0x30

/-- `CS8` (octal 0000060): 8-bit characters. -/
def CS8 : Nat := 0x30

/-- `PARENB` (octal 0000400): parity enable. -/
def PARENB : Nat := 0x100

/-- `cfsetispeed(&options, B115200)`. -/
def cfsetispeed (t : Termios) (speed : Nat) : Termios := { t with ispeed := speed }

/-- `cfsetospeed(&options, B115200)`. -/
def cfsetospeed (t : Termios) (speed : Nat) : Termios := { t with ospeed := speed }

/-- `cfmakeraw(&options)` (glibc):
`c_iflag &= ~(IGNBRK|BRKINT|PARMRK|ISTRIP|INLCR|IGNCR|ICRNL|IXON);`
`c_oflag &= ~OPOST; c_lflag &= ~(ECHO|ECHONL|ICANON|ISIG|IEXTEN);`
`c_cflag &= ~(CSIZE|PARENB); c_cflag |= CS8;`
(mask values: IGNBRK 0o1, BRKINT 0o2, PARMRK 0o10, ISTRIP 0o40, INLCR
0o100, IGNCR 0o200, ICRNL 0o400, IXON 0o2000; OPOST 0o1; ECHO 0o10,
ECHONL 0o100, ICANON 0o2, ISIG 0o1, IEXTEN 0o100000). -/
def cfmakeraw (t : Termios) : Termios :=
  { t with
    c_iflag := Nat.ldiff t.c_iflag (1 ||| 2 ||| 8 ||| 32 ||| 64 ||| 128 ||| 256 ||| 1024)
    c_oflag := Nat.ldiff t.c_oflag 1
    c_lflag := Nat.ldiff t.c_lflag (8 ||| 64 ||| 2 ||| 1 ||| 32768)
    c_cflag := Nat.ldiff t.c_cflag (CSIZE ||| PARENB) ||| CS8 }

/-- The one-time UART configuration performed by `main` after a successful
open: `cfsetispeed; cfsetospeed; cfmakeraw; options.c_cflag |= CREAD | CLOCAL;`
(the struct then handed to `tcsetattr`). -/
def configureSerial (t : Termios) : Termios :=
  let t1 := cfsetispeed t B115200
  let t2 := cfsetospeed t1 B115200
  let t3 := cfmakeraw t2
  { t3 with c_cflag := t3.c_cflag ||| (CREAD ||| CLOCAL) }

/-- Raw mode, as the postcondition of `cfmakeraw` on the flag words: the
input-processing, output-processing and local-mode bits are clear, parity
is disabled and the character size is 8 bits. -/
def isRaw (t : Termios) : Prop :=
  t.c_iflag.testBit 0 = false ∧  -- IGNBRK
  t.c_iflag.testBit 1 = false ∧  -- BRKINT
  t.c_iflag.testBit 3 = false ∧  -- PARMRK
  t.c_iflag.testBit 5 = false ∧  -- ISTRIP
  t.c_iflag.testBit 6 = false ∧  -- INLCR
  t.c_iflag.testBit 7 = false ∧  -- IGNCR
  t.c_iflag.testBit 8 = false ∧  -- ICRNL
  t.c_iflag.testBit 10 = false ∧ -- IXON
  t.c_oflag.testBit 0 = false ∧  -- OPOST
  t.c_lflag.testBit 3 = false ∧  -- ECHO
  t.c_lflag.testBit 6 = false ∧  -- ECHONL
  t.c_lflag.testBit 1 = false ∧  -- ICANON
  t.c_lflag.testBit 0 = false ∧  -- ISIG
  t.c_lflag.testBit 15 = false ∧ -- IEXTEN
  t.c_cflag.testBit 8 = false ∧  -- PARENB clear
  t.c_cflag.testBit 4 = true ∧   -- CS8 (bits 4 and 5 set)
  t.c_cflag.testBit 5 = true

/-! ## Helper lemmas -/

theorem loopStep_iterate_shape (k : Nat) (next : Timespec) (m : Nat) :
    ∃ next2, loopStep^[k] (Phase.looping next m) = Phase.looping next2 (m + k) := by
  induction k with
  | zero => exact ⟨next, rfl⟩
  | succ k ih =>
    obtain ⟨next2, h⟩ := ih
    exact ⟨add_ms next2 50, by
      rw [Function.iterate_succ_apply', h]
      rfl⟩

theorem loopStep_ne_done (k : Nat) (next : Timespec) (m : Nat) :
    loopStep^[k] (Phase.looping next m) ≠ Phase.done := by
  obtain ⟨next2, h⟩ := loopStep_iterate_shape k next m
  simp [h]

theorem loopStep_iterate_deadline (env : MainEnv) (k : Nat) :
    loopStep^[k] (Phase.looping (add_ms env.clock0 50) 0) =
      Phase.looping (deadline env k) k := by
  induction k with
  | zero => rfl
  | succ k ih => rw [Function.iterate_succ_apply', ih, loopStep, deadline]

theorem deadline_nowAt_indep (env : MainEnv) (f : Nat → Timespec) (n : Nat) :
    deadline { env with nowAt := f } n = deadline env n := by
  induction n with
  | zero => rfl
  | succ n ih => simp only [deadline, ih]

theorem t_sec_eq_toNs (s now : Timespec) :
    t_sec s now = ((toNs now - toNs s : Int) : ℝ) / 1000000000 := by
  unfold t_sec toNs
  have h9 : (1e9 : ℝ) = 1000000000 := by norm_num
  rw [h9]
  push_cast
  ring

/-! ## Claim theorems -/

/-- C2: For every loop iteration (any environment, any tick), the emitted
value `y = amplitude·sin(2π·f·t_sec) + offset` lies within
`[offset − amplitude, offset + amplitude]`, i.e. within `[0, 8]`. -/
theorem C2_output_range (env : MainEnv) (n : Nat) :
    offset - amplitude ≤ emittedValue env n ∧
    emittedValue env n ≤ offset + amplitude ∧
    0 ≤ emittedValue env n ∧ emittedValue env n ≤ 8 := by
  unfold emittedValue sampleY amplitude offset
  set x := two_pi * freq * t_sec env.clockStart (env.nowAt n) with hx
  have h1 := Real.neg_one_le_sin x
  have h2 := Real.sin_le_one x
  refine ⟨?_, ?_, ?_, ?_⟩
  all_goals norm_num
  all_goals linarith

/-- C1: at tick `n`, under ideal timing (the monotonic clock reading for
iteration `n` is exactly the start reading advanced by `n·50 ms`), the
emitted value equals `amplitude·sin(2π·f·(n·S)) + offset` with
`S = 50 ms`. -/
theorem C1_tick_value (env : MainEnv) (n : Nat)
    (hclk : env.nowAt n = add_ms env.clockStart (50 * (n : Int))) :
    emittedValue env n =
      amplitude * Real.sin (two_pi * freq * ((n : ℝ) * (50 / 1000))) + offset := by
  unfold emittedValue sampleY
  have harg : t_sec env.clockStart (env.nowAt n) = (n : ℝ) * (50 / 1000) := by
    rw [hclk, t_sec_eq_toNs, add_ms_toNs]
    push_cast
    ring
  rw [harg]

/-- A concrete ideal-timing environment: both start-up clock readings are
the epoch and iteration `n`'s reading is the epoch advanced by `n·50 ms`. -/
def idealEnv : MainEnv :=
  { rtOk := true
    openResult := some 3
    termiosInit := ⟨0, 0, 0, 0, 0, 0⟩
    clock0 := ⟨0, 0⟩
    clockStart := ⟨0, 0⟩
    nowAt := fun k => add_ms ⟨0, 0⟩ (50 * (k : Int)) }

theorem C1_tick_value_witness :
    emittedValue idealEnv 2 =
      amplitude * Real.sin (two_pi * freq * (((2 : Nat) : ℝ) * (50 / 1000))) + offset :=
  C1_tick_value idealEnv 2 rfl

/-- C5: a failed `sched_setscheduler` call is logged (`perror`) and then
ignored: `main` behaves identically to the success case (same outcome,
the stderr log only gains the `perror` line). -/
theorem C5_rt_failure_ignored (env : MainEnv) :
    mainRun { env with rtOk := false } = mainRun { env with rtOk := true } ∧
    (program { env with rtOk := false }).outcome =
      (program { env with rtOk := true }).outcome ∧
    (program { env with rtOk := false }).stderrLog =
      "sched_setscheduler" :: (program { env with rtOk := true }).stderrLog :=
  ⟨rfl, rfl, rfl⟩

/-- C6: the absolute wake-up deadline pending at iteration `n` is the
initial deadline plus exactly `n·50 ms`, by exact integer arithmetic on
`(tv_sec, tv_nsec)`; it is what the loop state carries, and it never
depends on the per-iteration clock readings. -/
theorem C6_deadline_arith (env : MainEnv) (n : Nat) :
    toNs (deadline env n) = toNs (deadline env 0) + (n : Int) * 50000000 ∧
    loopStep^[n] (Phase.looping (add_ms env.clock0 50) 0) =
      Phase.looping (deadline env n) n ∧
    ∀ f, deadline { env with nowAt := f } n = deadline env n := by
  refine ⟨?_, loopStep_iterate_deadline env n, fun f => deadline_nowAt_indep env f n⟩
  induction n with
  | zero => simp
  | succ n ih =>
    simp only [deadline, add_ms_toNs] at ih ⊢
    rw [ih]
    push_cast
    ring

/-- C8: once the loop is entered it never terminates: from any loop state,
any number of steps again yields a loop state, and the post-loop program
point (`close`/`return 0`) is unreachable. -/
theorem C8_no_termination (next : Timespec) (m k : Nat) :
    loopStep^[k] (Phase.looping next m) ≠ Phase.done ∧
    ∃ next2 m2, loopStep^[k] (Phase.looping next m) = Phase.looping next2 m2 := by
  obtain ⟨next2, h⟩ := loopStep_iterate_shape k next m
  exact ⟨loopStep_ne_done k next m, next2, m + k, h⟩

/-- C4: if `open` fails the program reports the failure on stderr and
exits with status 1 having performed no serial write; if `open` succeeds
the loop is entered and the program never returns normally. -/
theorem C4_open_failure (env : MainEnv) :
    (env.openResult = none →
      program env =
        ⟨enable_realtime env.rtOk ++ ["Failed to open UART"],
          MainOutcome.exitWith 1 []⟩) ∧
    (∀ fd, env.openResult = some fd →
      (program env).outcome =
        MainOutcome.entersLoop (Phase.looping (add_ms env.clock0 50) 0) ∧
      ∀ k, loopStep^[k] (Phase.looping (add_ms env.clock0 50) 0) ≠ Phase.done) := by
  constructor
  · intro h
    simp [program, mainRun, h]
  · intro fd h
    refine ⟨by simp [program, mainRun, h], fun k => loopStep_ne_done k _ 0⟩

/-- A concrete environment in which `open` fails. -/
def envFail : MainEnv :=
  { idealEnv with openResult := none }

theorem C4_open_failure_witness :
    program envFail =
      ⟨enable_realtime envFail.rtOk ++ ["Failed to open UART"],
        MainOutcome.exitWith 1 []⟩ ∧
    (program idealEnv).outcome =
      MainOutcome.entersLoop (Phase.looping (add_ms idealEnv.clock0 50) 0) :=
  ⟨(C4_open_failure envFail).1 rfl, ((C4_open_failure idealEnv).2 3 rfl).1⟩

/-- C9: `add_ms` preserves `timespec` normalisation and denotes exactly
the original instant plus `ms` milliseconds (the model's unbounded
integers reflect the claim's no-overflow side condition). -/
theorem C9_add_ms_normalised (t : Timespec) (ms : Int)
    (h0 : 0 ≤ t.tv_nsec) (_h1 : t.tv_nsec < 1000000000) (hms : 0 ≤ ms) :
    0 ≤ (add_ms t ms).tv_nsec ∧ (add_ms t ms).tv_nsec < 1000000000 ∧
    toNs (add_ms t ms) = toNs t + ms * 1000000 := by
  refine ⟨?_, addMsNorm_nsec_lt _, add_ms_toNs t ms⟩
  unfold add_ms
  apply addMsNorm_nsec_nonneg
  have : 0 ≤ ms * 1000000 := by positivity
  simp only []
  omega

theorem C9_add_ms_normalised_witness :
    0 ≤ (add_ms ⟨7, 999999999⟩ 50).tv_nsec ∧
    (add_ms ⟨7, 999999999⟩ 50).tv_nsec < 1000000000 ∧
    toNs (add_ms ⟨7, 999999999⟩ 50) = toNs ⟨7, 999999999⟩ + 50 * 1000000 :=
  C9_add_ms_normalised ⟨7, 999999999⟩ 50 (by decide) (by decide) (by decide)

/-! ## Formatting lemmas -/

theorem digitChar_isDigit (d : Nat) (h : d < 10) : (digitChar d).isDigit = true := by
  interval_cases d <;> decide

theorem natDigits_spec (n : Nat) :
    natDigits n ≠ [] ∧ ∀ c ∈ natDigits n, c.isDigit = true := by
  rw [natDigits.eq_def]
  split
  · next h =>
    refine ⟨by simp, ?_⟩
    intro c hc
    simp only [List.mem_singleton] at hc
    subst hc
    exact digitChar_isDigit n h
  · next h =>
    have ih := natDigits_spec (n / 10)
    refine ⟨by simp [ih.1], ?_⟩
    intro c hc
    rcases List.mem_append.mp hc with h1 | h1
    · exact ih.2 c h1
    · simp only [List.mem_singleton] at h1
      subst h1
      exact digitChar_isDigit _ (Nat.mod_lt _ (by omega))
termination_by n
decreasing_by
  exact Nat.div_lt_self (by omega) (by omega)

theorem natRepr_ne_empty (n : Nat) : natRepr n ≠ "" := by
  unfold natRepr
  intro h
  exact (natDigits_spec n).1 (by simpa [String.ext_iff] using h)

theorem natRepr_data (n : Nat) : (natRepr n).data = natDigits n := rfl

theorem frac4_length (k : Nat) : (frac4 k).length = 4 := rfl

theorem frac4_digits (k : Nat) : ∀ c ∈ (frac4 k).data, c.isDigit = true := by
  intro c hc
  have hl : (frac4 k).data =
      [digitChar (k / 1000 % 10), digitChar (k / 100 % 10),
       digitChar (k / 10 % 10), digitChar (k % 10)] := rfl
  rw [hl] at hc
  simp only [List.mem_cons, List.not_mem_nil, or_false] at hc
  rcases hc with h | h | h | h <;>
    (subst h; exact digitChar_isDigit _ (Nat.mod_lt _ (by omega)))

theorem round_nonneg_of_nonneg (y : ℚ) (h : 0 ≤ y) : 0 ≤ round (y * 10000) := by
  rw [round_eq]
  apply Int.le_floor.mpr
  push_cast
  nlinarith

/-- For a non-negative sample, `format4` decomposes as integer digits, a
dot, the 4 fractional digits, and the CR LF terminator. -/
theorem format4_eq (y : ℚ) (hy : 0 ≤ y) :
    format4 y =
      natRepr ((round (y * 10000)).natAbs / 10000) ++ "." ++
        frac4 ((round (y * 10000)).natAbs % 10000) ++ "\r\n" := by
  unfold format4
  have h := round_nonneg_of_nonneg y hy
  simp only [not_lt.mpr h, if_neg (not_lt.mpr h : ¬ round (y * 10000) < 0)]
  simp

theorem natRepr_length_lt10 (n : Nat) (h : n < 10) : (natRepr n).length = 1 := by
  unfold natRepr
  rw [natDigits.eq_def, if_pos h]
  rfl

/-- C3: the first `n` iterations write exactly `n` lines to the serial
device, one per tick (the `n+1`-st run extends the trace by exactly the
line for sample `n`), and every written line is the decimal text of its
sample with exactly 4 fractional digits, terminated by CR LF. -/
theorem C3_line_format (fl : Nat → ℚ) (hfl : ∀ k, 0 ≤ fl k) (n : Nat) :
    (serialWrites fl n).length = n ∧
    serialWrites fl (n + 1) = serialWrites fl n ++ [format4 (fl n)] ∧
    ∀ line ∈ serialWrites fl n, ∃ k < n, line = format4 (fl k) ∧
      ∃ ip fr, line = ip ++ "." ++ fr ++ "\r\n" ∧
        ip ≠ "" ∧ (∀ c ∈ ip.data, c.isDigit = true) ∧
        fr.length = 4 ∧ (∀ c ∈ fr.data, c.isDigit = true) := by
  refine ⟨?_, rfl, ?_⟩
  · induction n with
    | zero => rfl
    | succ n ih => simp [serialWrites, ih]
  · induction n with
    | zero => intro line h; cases h
    | succ n ih =>
      intro line hline
      rw [serialWrites] at hline
      rcases List.mem_append.mp hline with h | h
      · obtain ⟨k, hk, hrest⟩ := ih line h
        exact ⟨k, by omega, hrest⟩
      · simp only [List.mem_singleton] at h
        subst h
        refine ⟨n, by omega, rfl, ?_⟩
        refine ⟨natRepr ((round (fl n * 10000)).natAbs / 10000),
          frac4 ((round (fl n * 10000)).natAbs % 10000),
          format4_eq (fl n) (hfl n), natRepr_ne_empty _, ?_, frac4_length _, frac4_digits _⟩
        rw [natRepr_data]
        exact (natDigits_spec _).2

/-- The constant sample stream 4.0: the exact double computed at `t = 0`
(`sin 0 = 0`, so `y = 4.0` exactly). -/
def constFour : Nat → ℚ := fun _ => 4

theorem C3_line_format_witness :
    (serialWrites constFour 1).length = 1 ∧
    serialWrites constFour 2 = serialWrites constFour 1 ++ [format4 (constFour 1)] :=
  ⟨(C3_line_format constFour (fun _ => by norm_num [constFour]) 1).1,
    (C3_line_format constFour (fun _ => by norm_num [constFour]) 1).2.1⟩

/-- C10: for a sample in `[0, 8]` the formatted line has exactly 8
characters, so with the NUL terminator it fits the 32-byte buffer without
truncation, and the full line written ends with the CR LF terminator. -/
theorem C10_format_fits_buffer (y : ℚ) (h0 : 0 ≤ y) (h8 : y ≤ 8) :
    (format4 y).length ≤ 8 ∧ (format4 y).length + 1 ≤ 32 ∧
    ∃ pre, format4 y = pre ++ "\r\n" := by
  have hm0 : 0 ≤ round (y * 10000) := round_nonneg_of_nonneg y h0
  have hm8 : round (y * 10000) ≤ 80000 := by
    rw [round_eq]
    have hlt : (y * 10000 + 1 / 2 : ℚ) < ((80001 : Int) : ℚ) := by
      push_cast
      linarith
    have := Int.floor_lt.mpr hlt
    omega
  have hip : (round (y * 10000)).natAbs / 10000 < 10 := by omega
  have hlen : (format4 y).length = 8 := by
    rw [format4_eq y h0]
    simp only [String.length_append]
    rw [natRepr_length_lt10 _ hip, frac4_length]
    rfl
  exact ⟨by omega, by omega, _, format4_eq y h0⟩

theorem C10_format_fits_buffer_witness :
    (format4 4).length ≤ 8 ∧ (format4 4).length + 1 ≤ 32 ∧
    ∃ pre, format4 4 = pre ++ "\r\n" :=
  C10_format_fits_buffer 4 (by norm_num) (by norm_num)

/-! ## Termios bit lemmas -/

theorem ldiff_testBit_false (x m i : Nat) (h : m.testBit i = true) :
    (Nat.ldiff x m).testBit i = false := by
  rw [Nat.testBit_ldiff, h]
  simp

theorem lor_testBit_right (x m i : Nat) (h : m.testBit i = true) :
    (x ||| m).testBit i = true := by
  rw [Nat.testBit_lor, h]
  simp

theorem lor_testBit_left (x m i : Nat) (h : x.testBit i = true) :
    (x ||| m).testBit i = true := by
  rw [Nat.testBit_lor, h]
  simp

theorem lor_testBit_false (x m i : Nat) (hx : x.testBit i = false)
    (h : m.testBit i = false) : (x ||| m).testBit i = false := by
  rw [Nat.testBit_lor, hx, h]
  rfl

/-- C7: the one-time serial configuration sets both stored speeds to the
`B115200` code, leaves the terminal in raw mode (input/output/local
processing bits clear, parity off, 8-bit characters), and sets `CREAD`
(bit 7) and `CLOCAL` (bit 11) in `c_cflag`. -/
theorem C7_serial_config (t : Termios) :
    (configureSerial t).ispeed = B115200 ∧
    (configureSerial t).ospeed = B115200 ∧
    isRaw (configureSerial t) ∧
    (configureSerial t).c_cflag.testBit 7 = true ∧
    (configureSerial t).c_cflag.testBit 11 = true := by
  have hi : (configureSerial t).c_iflag =
      Nat.ldiff t.c_iflag (1 ||| 2 ||| 8 ||| 32 ||| 64 ||| 128 ||| 256 ||| 1024) := rfl
  have ho : (configureSerial t).c_oflag = Nat.ldiff t.c_oflag 1 := rfl
  have hl : (configureSerial t).c_lflag =
      Nat.ldiff t.c_lflag (8 ||| 64 ||| 2 ||| 1 ||| 32768) := rfl
  have hcf : (configureSerial t).c_cflag =
      (Nat.ldiff t.c_cflag (CSIZE ||| PARENB) ||| CS8) ||| (CREAD ||| CLOCAL) := rfl
  refine ⟨rfl, rfl, ?_, ?_, ?_⟩
  · unfold isRaw
    rw [hi, ho, hl, hcf]
    refine ⟨ldiff_testBit_false _ _ _ (by decide), ldiff_testBit_false _ _ _ (by decide),
      ldiff_testBit_false _ _ _ (by decide), ldiff_testBit_false _ _ _ (by decide),
      ldiff_testBit_false _ _ _ (by decide), ldiff_testBit_false _ _ _ (by decide),
      ldiff_testBit_false _ _ _ (by decide), ldiff_testBit_false _ _ _ (by decide),
      ldiff_testBit_false _ _ _ (by decide), ldiff_testBit_false _ _ _ (by decide),
      ldiff_testBit_false _ _ _ (by decide), ldiff_testBit_false _ _ _ (by decide),
      ldiff_testBit_false _ _ _ (by decide), ldiff_testBit_false _ _ _ (by decide),
      ?_, ?_, ?_⟩
    · exact lor_testBit_false _ _ _
        (lor_testBit_false _ _ _ (ldiff_testBit_false _ _ _ (by decide)) (by decide))
        (by decide)
    · exact lor_testBit_left _ _ _ (lor_testBit_right _ _ _ (by decide))
    · exact lor_testBit_left _ _ _ (lor_testBit_right _ _ _ (by decide))
  · rw [hcf]
    exact lor_testBit_right _ _ _ (by decide)
  · rw [hcf]
    exact lor_testBit_right _ _ _ (by decide)

end TestingTiming
